import Mathlib

/-!
Verification development for `calc_seqeval_scores.py`: a shallow embedding of
the evaluation engine of the script (tag normalizer, flatten / fixed-window
re-chunking, and the token-level confusion counter `performance_measure`),
together with theorems settling the claims of the specification about it.
-/

/-- A Python value as it occurs in the JSON-like token-record inputs of the
script: a string, an integer, or a (possibly nested) list.  Other atom kinds
do not occur in these inputs. -/
inductive PyVal where
  | str (s : String) : PyVal
  | int (n : Int) : PyVal
  | list (l : List PyVal) : PyVal

/-- True exactly for `PyVal.list` values, i.e. the values for which the Python test
`type(input) == list` test in `delete_idx_0_and_2_of_string_list_with_3_members`
succeeds. -/
def PyVal.isList : PyVal → Bool
  | .list _ => true
  | _ => false

/-- The Python comparison `input[0] == "UNK"` (after the two deletions): true only
for the string `"UNK"`; comparing any non-string value to `"UNK"` is `False`. -/
def isUNK : PyVal → Bool
  | .str s => s == "UNK"
  | _ => false

/-- The post-deletion UNK remap of the script: the surviving label element is
replaced by `"O"` when it equals `"UNK"`, and kept otherwise. -/
def labelFix (b : PyVal) : PyVal := if isUNK b then PyVal.str "O" else b

/-- The Python test `type(input[0]) == str` on the head of a list. -/
def headIsStr : List PyVal → Bool
  | PyVal.str _ :: _ => true
  | _ => false

/-- The leaf-record test of the script: `len(input) == 3 and type(input[0]) == str`. -/
def isLeafRec (l : List PyVal) : Bool := l.length == 3 && headIsStr l

/-- The element surviving `del input[0]; del input[1]` on a 3-element list:
the original second element (index 1), with the UNK remap applied. -/
def leafKeep (l : List PyVal) : PyVal := labelFix (l.getD 1 (PyVal.int 0))

mutual

/-- Function `delete_idx_0_and_2_of_string_list_with_3_members` from the script.  The
Python function mutates `input` in place; the embedding returns the mutated
value.  A 3-element list whose first element is a string is truncated to the
single-element list holding its (UNK-remapped) second element; any other list
is recursed into member by member; non-list values are left untouched (the
guard `type(input) == list` of the Python function fails and it returns `None`
without changing anything). -/
def delete_idx_0_and_2_of_string_list_with_3_members : PyVal → PyVal
  | .str s => .str s
  | .int n => .int n
  | .list l => .list (if isLeafRec l then [leafKeep l] else deleteIdxEach l)

/-- The recursive descent `for item in input: delete_idx_0_and_2_... (item)`. -/
def deleteIdxEach : List PyVal → List PyVal
  | [] => []
  | x :: xs => delete_idx_0_and_2_of_string_list_with_3_members x :: deleteIdxEach xs

end

theorem normalizeList_eq_map (l : List PyVal) : deleteIdxEach l = l.map delete_idx_0_and_2_of_string_list_with_3_members := by
  induction l with
  | nil => rfl
  | cons x xs ih => simp [deleteIdxEach, ih]

theorem normalize_str (s : String) : delete_idx_0_and_2_of_string_list_with_3_members (PyVal.str s) = PyVal.str s := rfl

theorem normalize_int (n : Int) : delete_idx_0_and_2_of_string_list_with_3_members (PyVal.int n) = PyVal.int n := rfl

theorem normalize_atom (v : PyVal) (h : v.isList = false) : delete_idx_0_and_2_of_string_list_with_3_members v = v := by
  cases v with
  | str s => rfl
  | int n => rfl
  | list l => simp [PyVal.isList] at h

theorem normalize_leaf (s : String) (b c : PyVal) :
    delete_idx_0_and_2_of_string_list_with_3_members (PyVal.list [PyVal.str s, b, c]) = PyVal.list [labelFix b] := by
  simp [delete_idx_0_and_2_of_string_list_with_3_members, isLeafRec, headIsStr, leafKeep]

theorem normalize_nonleaf (l : List PyVal) (h : isLeafRec l = false) :
    delete_idx_0_and_2_of_string_list_with_3_members (PyVal.list l) = PyVal.list (l.map delete_idx_0_and_2_of_string_list_with_3_members) := by
  simp [delete_idx_0_and_2_of_string_list_with_3_members, h, normalizeList_eq_map]

/-- The keys of `current_tei_writer_mapping` in the script: the entity-type
catalog driving the per-type confusion counts.  Each key maps to itself plus an
empty attribute record in the script; only the keys are consumed by
`performance_measure`, so only they are modelled. -/
def current_tei_writer_mapping_keys : List String :=
  ["Ort-Container", "Ort-Container-BK", "Ort-Objekt", "Ort-Objekt-BK",
   "Ort-Abstrakt", "Ort-Abstrakt-BK", "Ort-ALT",
   "Bewegung-Subjekt", "Bewegung-Objekt", "Bewegung-Licht", "Bewegung-Schall",
   "Bewegung-Geruch", "Bewegung-ALT",
   "Dimensionierung-Menge", "Dimensionierung-Abstand", "Dimensionierung-Groesse",
   "Dimensionierung-ALT",
   "Richtung", "Richtung-ALT", "Positionierung", "Positionierung-ALT"]

/-- Entry `performance_dict["TP_all"]`: `sum(y_t == y_p for ... if y_t != "O" or y_p != "O")`. -/
def tp_all (y_true y_pred : List String) : Nat :=
  (((y_true.zip y_pred).filter (fun q => q.1 != "O" || q.2 != "O")).countP
    (fun q => q.1 == q.2))

/-- Entry `performance_dict["TP_<entity>"]`: `sum(y_t == y_p for ... if y_t == "B-<entity>" or y_t == "I-<entity>")`. -/
def tp_entity (entity : String) (y_true y_pred : List String) : Nat :=
  (((y_true.zip y_pred).filter
      (fun q => q.1 == "B-" ++ entity || q.1 == "I-" ++ entity)).countP
    (fun q => q.1 == q.2))

/-- Entry `performance_dict["FP_all"]`: `sum((y_t != y_p) and (y_p != "O") for ...)`. -/
def fp_all (y_true y_pred : List String) : Nat :=
  ((y_true.zip y_pred).countP (fun q => q.1 != q.2 && q.2 != "O"))

/-- Entry `performance_dict["FP_<entity>"]`: the `FP_all` summand restricted by
`if y_p == "B-<entity>" or y_p == "I-<entity>"`. -/
def fp_entity (entity : String) (y_true y_pred : List String) : Nat :=
  (((y_true.zip y_pred).filter
      (fun q => q.2 == "B-" ++ entity || q.2 == "I-" ++ entity)).countP
    (fun q => q.1 != q.2 && q.2 != "O"))

/-- Entry `performance_dict["FN_all"]`: `sum((y_t != "O") and (y_p == "O") for ...)`. -/
def fn_all (y_true y_pred : List String) : Nat :=
  ((y_true.zip y_pred).countP (fun q => q.1 != "O" && q.2 == "O"))

/-- Entry `performance_dict["FN_<entity>"]`: the `FN_all` summand restricted by
`if y_t == "B-<entity>" or y_t == "I-<entity>"`. -/
def fn_entity (entity : String) (y_true y_pred : List String) : Nat :=
  (((y_true.zip y_pred).filter
      (fun q => q.1 == "B-" ++ entity || q.1 == "I-" ++ entity)).countP
    (fun q => q.1 != "O" && q.2 == "O"))

/-- Entry `performance_dict["TN"]`: `sum(y_t == y_p == "O" for ...)`. -/
def tn (y_true y_pred : List String) : Nat :=
  ((y_true.zip y_pred).countP (fun q => q.1 == "O" && q.2 == "O"))

/-- Function `performance_measure` from the script, as the association list of dict
entries in insertion order.  The guard `any(isinstance(s, list) for
s in y_true)` flattens the two 2-d inputs before counting; on the typed 2-d
input it is modelled by `List.flatten` (for the empty input the guard is
false, but flattening is then also the identity). -/
def performance_measure (y_true y_pred : List (List String)) : List (String × Nat) :=
  let yt := y_true.flatten
  let yp := y_pred.flatten
  ("TP_all", tp_all yt yp)
    :: (current_tei_writer_mapping_keys.map (fun e => ("TP_" ++ e, tp_entity e yt yp))
    ++ ("FP_all", fp_all yt yp)
    :: (current_tei_writer_mapping_keys.map (fun e => ("FP_" ++ e, fp_entity e yt yp))
    ++ ("FN_all", fn_all yt yp)
    :: (current_tei_writer_mapping_keys.map (fun e => ("FN_" ++ e, fn_entity e yt yp))
    ++ [("TN", tn yt yp)])))

/-- Every token-pair position falls in exactly one of the four `*_all`/`TN`
buckets, so the four counts sum to the number of aligned positions. -/
theorem confusion_partition (yt yp : List String) :
    tp_all yt yp + fp_all yt yp + fn_all yt yp + tn yt yp = (yt.zip yp).length := by
  unfold tp_all fp_all fn_all tn
  rw [List.countP_filter]
  induction yt.zip yp with
  | nil => rfl
  | cons q l ih =>
    rcases q with ⟨t, p⟩
    by_cases h1 : t = p <;> by_cases h2 : t = "O" <;> by_cases h3 : p = "O"
    all_goals first
      | (exact absurd (h1.symm.trans h2) h3)
      | (exact absurd (h1.trans h3) h2)
      | (exact absurd (h2.trans h3.symm) h1)
      | (simp [List.countP_cons, List.length_cons, h1, h2, h3] at ih ⊢
         first
           | omega
           | (split_ifs <;> omega))

/-- Claim C5: for equal-length flattened inputs, the four aggregate counts returned
by `performance_measure` sum to the total token count. -/
theorem performance_measure_partition (y_true y_pred : List (List String))
    (hlen : y_true.flatten.length = y_pred.flatten.length) :
    ((performance_measure y_true y_pred).lookup "TP_all").getD 0
      + ((performance_measure y_true y_pred).lookup "FP_all").getD 0
      + ((performance_measure y_true y_pred).lookup "FN_all").getD 0
      + ((performance_measure y_true y_pred).lookup "TN").getD 0
    = y_true.flatten.length := by
  have step : ((performance_measure y_true y_pred).lookup "TP_all").getD 0
      + ((performance_measure y_true y_pred).lookup "FP_all").getD 0
      + ((performance_measure y_true y_pred).lookup "FN_all").getD 0
      + ((performance_measure y_true y_pred).lookup "TN").getD 0
    = tp_all y_true.flatten y_pred.flatten + fp_all y_true.flatten y_pred.flatten
      + fn_all y_true.flatten y_pred.flatten + tn y_true.flatten y_pred.flatten := rfl
  rw [step, confusion_partition, List.length_zip, hlen, min_self]

/-- Claim C5 witness at a concrete equal-length input pair. -/
theorem performance_measure_partition_witness :
    ([["B-Richtung", "O"]] : List (List String)).flatten.length
        = ([["I-Richtung", "O"]] : List (List String)).flatten.length
    ∧ ((performance_measure [["B-Richtung", "O"]] [["I-Richtung", "O"]]).lookup "TP_all").getD 0
      + ((performance_measure [["B-Richtung", "O"]] [["I-Richtung", "O"]]).lookup "FP_all").getD 0
      + ((performance_measure [["B-Richtung", "O"]] [["I-Richtung", "O"]]).lookup "FN_all").getD 0
      + ((performance_measure [["B-Richtung", "O"]] [["I-Richtung", "O"]]).lookup "TN").getD 0
    = ([["B-Richtung", "O"]] : List (List String)).flatten.length :=
  ⟨rfl, performance_measure_partition [["B-Richtung", "O"]] [["I-Richtung", "O"]] rfl⟩

/-- Claim C1 counterexample: on flattened inputs of unequal total token count (2 gold
tokens vs 1 predicted token) the script does not abort: `performance_measure`
silently truncates to the common prefix — it returns exactly the dictionary of
the truncated pair — and a metric (`TP_all = 1`) is computed. -/
theorem length_mismatch_not_detected :
    performance_measure [["B-Richtung", "O"]] [["B-Richtung"]]
        = performance_measure [["B-Richtung"]] [["B-Richtung"]]
    ∧ (performance_measure [["B-Richtung", "O"]] [["B-Richtung"]]).lookup "TP_all"
        = some 1 := ⟨rfl, rfl⟩

/-- Claim C1, amended: no length validation is performed; `performance_measure`
computes its counts over `zip`, i.e. over the first
`min |gold| |pred|` aligned positions, for inputs of any two lengths. -/
theorem performance_measure_truncation (y_true y_pred : List (List String)) :
    ((performance_measure y_true y_pred).lookup "TP_all").getD 0
      + ((performance_measure y_true y_pred).lookup "FP_all").getD 0
      + ((performance_measure y_true y_pred).lookup "FN_all").getD 0
      + ((performance_measure y_true y_pred).lookup "TN").getD 0
    = min y_true.flatten.length y_pred.flatten.length := by
  have step : ((performance_measure y_true y_pred).lookup "TP_all").getD 0
      + ((performance_measure y_true y_pred).lookup "FP_all").getD 0
      + ((performance_measure y_true y_pred).lookup "FN_all").getD 0
      + ((performance_measure y_true y_pred).lookup "TN").getD 0
    = tp_all y_true.flatten y_pred.flatten + fp_all y_true.flatten y_pred.flatten
      + fn_all y_true.flatten y_pred.flatten + tn y_true.flatten y_pred.flatten := rfl
  rw [step, confusion_partition, List.length_zip]

/-- No catalog entity has a `B-`/`I-` label that collides with the outside label `"O"`. -/
theorem catalog_labels_ne_O :
    ∀ e ∈ current_tei_writer_mapping_keys,
      (("B-" ++ e == "O") = false ∧ ("I-" ++ e == "O") = false) := by decide

/-- Count `TP_<entity>` counts the aligned positions whose gold label is
`B-<entity>` or `I-<entity>` and where gold equals predicted. -/
theorem tp_entity_eq (e : String) (yt yp : List String) :
    tp_entity e yt yp
      = (yt.zip yp).countP
          (fun q => (q.1 == "B-" ++ e || q.1 == "I-" ++ e) && q.1 == q.2) := by
  unfold tp_entity
  rw [List.countP_filter]
  have hf : (fun (q : String × String) => (q.1 == q.2)
        && (q.1 == "B-" ++ e || q.1 == "I-" ++ e))
      = (fun q => (q.1 == "B-" ++ e || q.1 == "I-" ++ e) && (q.1 == q.2)) := by
    funext q; rw [Bool.and_comm]
  rw [hf]

/-- Count `FP_<entity>` counts the aligned positions whose predicted label is
`B-<entity>` or `I-<entity>` and where gold differs from predicted (the
extra `y_p != "O"` conjunct of the summand is redundant under the filter). -/
theorem fp_entity_eq (e : String) (yt yp : List String)
    (hB : ("B-" ++ e == "O") = false) (hI : ("I-" ++ e == "O") = false) :
    fp_entity e yt yp
      = (yt.zip yp).countP
          (fun q => (q.2 == "B-" ++ e || q.2 == "I-" ++ e) && q.1 != q.2) := by
  unfold fp_entity
  rw [List.countP_filter]
  have hf : (fun (q : String × String) => (q.1 != q.2 && q.2 != "O")
        && (q.2 == "B-" ++ e || q.2 == "I-" ++ e))
      = (fun q => (q.2 == "B-" ++ e || q.2 == "I-" ++ e) && q.1 != q.2) := by
    funext q
    cases hb : (q.2 == "B-" ++ e) with
    | true => rw [eq_of_beq hb]; simp [bne, hB]
    | false =>
      cases hi : (q.2 == "I-" ++ e) with
      | true => rw [eq_of_beq hi]; simp [bne, hI]
      | false => simp [hb, hi]
  rw [hf]

/-- Count `FN_<entity>` counts the aligned positions whose gold label is
`B-<entity>` or `I-<entity>` and whose predicted label is `"O"` (the
extra `y_t != "O"` conjunct of the summand is redundant under the filter). -/
theorem fn_entity_eq (e : String) (yt yp : List String)
    (hB : ("B-" ++ e == "O") = false) (hI : ("I-" ++ e == "O") = false) :
    fn_entity e yt yp
      = (yt.zip yp).countP
          (fun q => (q.1 == "B-" ++ e || q.1 == "I-" ++ e) && q.2 == "O") := by
  unfold fn_entity
  rw [List.countP_filter]
  have hf : (fun (q : String × String) => (q.1 != "O" && q.2 == "O")
        && (q.1 == "B-" ++ e || q.1 == "I-" ++ e))
      = (fun q => (q.1 == "B-" ++ e || q.1 == "I-" ++ e) && q.2 == "O") := by
    funext q
    cases hb : (q.1 == "B-" ++ e) with
    | true => rw [eq_of_beq hb]; simp [bne, hB]
    | false =>
      cases hi : (q.1 == "I-" ++ e) with
      | true => rw [eq_of_beq hi]; simp [bne, hI]
      | false => simp [hb, hi]
  rw [hf]

/-- Claim C2: for equal-length flattened inputs and every entity type in the catalog,
`performance_measure` maps `TP_<Type>` to the count of positions whose gold
label is `B-<Type>`/`I-<Type>` with gold equal to predicted, `FP_<Type>` to the
count of positions whose predicted label is `B-<Type>`/`I-<Type>` with gold
different from predicted, and `FN_<Type>` to the count of positions whose gold
label is `B-<Type>`/`I-<Type>` with prediction `"O"` — the TP count being gated
on the gold label. -/
theorem performance_measure_per_entity (y_true y_pred : List (List String))
    (hlen : y_true.flatten.length = y_pred.flatten.length)
    (e : String) (he : e ∈ current_tei_writer_mapping_keys) :
    (performance_measure y_true y_pred).lookup ("TP_" ++ e)
      = some ((y_true.flatten.zip y_pred.flatten).countP
          (fun q => (q.1 == "B-" ++ e || q.1 == "I-" ++ e) && q.1 == q.2))
    ∧ (performance_measure y_true y_pred).lookup ("FP_" ++ e)
      = some ((y_true.flatten.zip y_pred.flatten).countP
          (fun q => (q.2 == "B-" ++ e || q.2 == "I-" ++ e) && q.1 != q.2))
    ∧ (performance_measure y_true y_pred).lookup ("FN_" ++ e)
      = some ((y_true.flatten.zip y_pred.flatten).countP
          (fun q => (q.1 == "B-" ++ e || q.1 == "I-" ++ e) && q.2 == "O")) := by
  obtain ⟨hB, hI⟩ := catalog_labels_ne_O e he
  refine ⟨?_, ?_, ?_⟩
  · rw [← tp_entity_eq]
    fin_cases he <;> rfl
  · rw [← fp_entity_eq e y_true.flatten y_pred.flatten hB hI]
    fin_cases he <;> rfl
  · rw [← fn_entity_eq e y_true.flatten y_pred.flatten hB hI]
    fin_cases he <;> rfl

/-- Claim C2 witness at a concrete equal-length input pair and catalog entity. -/
theorem performance_measure_per_entity_witness :
    ([["B-Richtung"]] : List (List String)).flatten.length
        = ([["I-Richtung"]] : List (List String)).flatten.length
    ∧ "Richtung" ∈ current_tei_writer_mapping_keys
    ∧ ((performance_measure [["B-Richtung"]] [["I-Richtung"]]).lookup ("TP_" ++ "Richtung")
      = some ((([["B-Richtung"]] : List (List String)).flatten.zip
            ([["I-Richtung"]] : List (List String)).flatten).countP
          (fun q => (q.1 == "B-" ++ "Richtung" || q.1 == "I-" ++ "Richtung") && q.1 == q.2))
    ∧ (performance_measure [["B-Richtung"]] [["I-Richtung"]]).lookup ("FP_" ++ "Richtung")
      = some ((([["B-Richtung"]] : List (List String)).flatten.zip
            ([["I-Richtung"]] : List (List String)).flatten).countP
          (fun q => (q.2 == "B-" ++ "Richtung" || q.2 == "I-" ++ "Richtung") && q.1 != q.2))
    ∧ (performance_measure [["B-Richtung"]] [["I-Richtung"]]).lookup ("FN_" ++ "Richtung")
      = some ((([["B-Richtung"]] : List (List String)).flatten.zip
            ([["I-Richtung"]] : List (List String)).flatten).countP
          (fun q => (q.1 == "B-" ++ "Richtung" || q.1 == "I-" ++ "Richtung") && q.2 == "O"))) :=
  ⟨rfl, by decide,
    performance_measure_per_entity [["B-Richtung"]] [["I-Richtung"]] rfl "Richtung" (by decide)⟩

/-- Constant `words_per_sentence_amount = 20` of the script: the fixed re-chunking
window size. -/
def words_per_sentence_amount : Nat := 20

/-- The re-chunking comprehension of the script,
`[[word for word in y[i:i + W]] for i in range(0, len(y), W)]`, in recursive
form: repeatedly split off the first `W` elements.  (For `W = 0` the Python
`range` raises an error; the script only ever uses `W = 20`.  The
embedding returns `[]` for `W = 0`, a case no claim relies on.) -/
def rechunk {α : Type} (W : Nat) (l : List α) : List (List α) :=
  if h : l.isEmpty || W == 0 then [] else l.take W :: rechunk W (l.drop W)
termination_by l.length
decreasing_by
  simp only [Bool.or_eq_true, not_or, List.isEmpty_iff, beq_iff_eq] at h
  have hl : 0 < l.length := List.length_pos.mpr h.1
  simp only [List.length_drop]
  have hw : 0 < W := Nat.pos_of_ne_zero h.2
  omega

theorem rechunk_nil {α : Type} (W : Nat) : rechunk W ([] : List α) = [] := by
  rw [rechunk]; rfl

theorem rechunk_cons {α : Type} (W : Nat) (l : List α) (hW : 0 < W) (hl : l ≠ []) :
    rechunk W l = l.take W :: rechunk W (l.drop W) := by
  rw [rechunk]
  rw [dif_neg]
  simp only [Bool.or_eq_true, not_or, List.isEmpty_iff, beq_iff_eq]
  exact ⟨hl, Nat.pos_iff_ne_zero.mp hW⟩

theorem rechunk_ne_nil {α : Type} (W : Nat) (l : List α) (hW : 0 < W) (hl : l ≠ []) :
    rechunk W l ≠ [] := by
  rw [rechunk_cons W l hW hl]
  exact List.cons_ne_nil _ _

theorem rechunk_flatten_aux {α : Type} (W : Nat) (hW : 0 < W) :
    ∀ (n : Nat) (l : List α), l.length ≤ n → (rechunk W l).flatten = l := by
  intro n
  induction n with
  | zero =>
    intro l hl
    have he : l = [] := List.length_eq_zero.mp (Nat.le_zero.mp hl)
    subst he
    rw [rechunk_nil]
    rfl
  | succ n ih =>
    intro l hl
    by_cases he : l = []
    · subst he; rw [rechunk_nil]; rfl
    · rw [rechunk_cons W l hW he, List.flatten_cons,
        ih (l.drop W) (by
          have hlp : 0 < l.length := List.length_pos.mpr he
          simp only [List.length_drop]
          omega)]
      exact List.take_append_drop W l

theorem rechunk_dropLast_aux {α : Type} (W : Nat) (hW : 0 < W) :
    ∀ (n : Nat) (l : List α), l.length ≤ n →
      ∀ w ∈ (rechunk W l).dropLast, w.length = W := by
  intro n
  induction n with
  | zero =>
    intro l hl w hw
    have he : l = [] := List.length_eq_zero.mp (Nat.le_zero.mp hl)
    subst he
    rw [rechunk_nil] at hw
    exact absurd hw (List.not_mem_nil w)
  | succ n ih =>
    intro l hl w hw
    by_cases he : l = []
    · subst he; rw [rechunk_nil] at hw; exact absurd hw (List.not_mem_nil w)
    · rw [rechunk_cons W l hW he] at hw
      by_cases ht : rechunk W (l.drop W) = []
      · rw [ht] at hw
        exact absurd hw (List.not_mem_nil w)
      · rw [List.dropLast_cons_of_ne_nil ht] at hw
        have hdl : l.drop W ≠ [] := by
          intro hd
          exact ht (hd ▸ rechunk_nil W)
        have hlen : W < l.length := by
          have := List.length_drop W l
          have hpos : 0 < (l.drop W).length := List.length_pos.mpr hdl
          omega
        rcases List.mem_cons.mp hw with hhead | htail
        · subst hhead
          simp only [List.length_take]
          omega
        · exact ih (l.drop W) (by
            have hlp : 0 < l.length := List.length_pos.mpr he
            simp only [List.length_drop]
            omega) w htail

/-- Claim C6: for any window size `W ≥ 1`, re-chunking a flat sequence into windows
of `W` and re-flattening yields the original sequence, the window lengths sum
to the input length, and every window except possibly the last has length
exactly `W`. -/
theorem rechunk_length_preserving (W : Nat) (hW : 1 ≤ W) (l : List String) :
    (rechunk W l).flatten = l
    ∧ ((rechunk W l).map List.length).sum = l.length
    ∧ ∀ w ∈ (rechunk W l).dropLast, w.length = W := by
  have hfl : (rechunk W l).flatten = l :=
    rechunk_flatten_aux W hW l.length l (Nat.le_refl _)
  refine ⟨hfl, ?_, rechunk_dropLast_aux W hW l.length l (Nat.le_refl _)⟩
  rw [← List.length_flatten, hfl]

/-- Claim C6 witness: window size 2 over a 3-token sequence (final window shorter). -/
theorem rechunk_length_preserving_witness :
    1 ≤ 2
    ∧ ((rechunk 2 ["O", "B-Richtung", "I-Richtung"]).flatten
        = ["O", "B-Richtung", "I-Richtung"]
    ∧ ((rechunk 2 ["O", "B-Richtung", "I-Richtung"]).map List.length).sum
        = (["O", "B-Richtung", "I-Richtung"] : List String).length
    ∧ ∀ w ∈ (rechunk 2 ["O", "B-Richtung", "I-Richtung"]).dropLast, w.length = 2) :=
  ⟨by omega, rechunk_length_preserving 2 (by omega) ["O", "B-Richtung", "I-Richtung"]⟩

mutual

/-- The `flatten` generator of the script, gathered into a list:
`for item in list: if isinstance(item, Iterable) and not isinstance(item, str):
yield from flatten(item) else: yield item`.  In these inputs the only
iterable values are lists (strings are iterable in Python but are explicitly
exempted by the `not isinstance(item, str)` test, and numbers are not
iterable), so the recursion happens exactly on list items. -/
def flatten : List PyVal → List PyVal
  | [] => []
  | item :: rest => flattenItem item ++ flatten rest

/-- One `flatten` loop iteration: recurse into an iterable non-string item,
yield any other item as-is. -/
def flattenItem : PyVal → List PyVal
  | PyVal.list l => flatten l
  | v => [v]

end

mutual

/-- The leaves of a `PyVal` tree in left-to-right order, where a string or a
number is an atomic leaf and a list is an inner node.  This is the own description, per the claim, of what `flatten` should produce, defined independently of
`flatten` for comparison. -/
def leaves : PyVal → List PyVal
  | PyVal.str s => [PyVal.str s]
  | PyVal.int n => [PyVal.int n]
  | PyVal.list l => leavesList l

/-- The leaves of a forest of `PyVal` trees in left-to-right order. -/
def leavesList : List PyVal → List PyVal
  | [] => []
  | x :: xs => leaves x ++ leavesList xs

end

mutual

theorem flattenItem_eq_leaves : ∀ (v : PyVal), flattenItem v = leaves v
  | PyVal.str s => rfl
  | PyVal.int n => rfl
  | PyVal.list l => flatten_eq_leavesList l

theorem flatten_eq_leavesList : ∀ (l : List PyVal), flatten l = leavesList l
  | [] => rfl
  | x :: rest => by
    rw [show flatten (x :: rest) = flattenItem x ++ flatten rest from rfl,
      flattenItem_eq_leaves x, flatten_eq_leavesList rest]
    rfl

end

mutual

theorem leaves_atoms : ∀ (v : PyVal), (leaves v).all (fun x => !x.isList) = true
  | PyVal.str s => rfl
  | PyVal.int n => rfl
  | PyVal.list l => leavesList_atoms l

theorem leavesList_atoms : ∀ (l : List PyVal),
    (leavesList l).all (fun x => !x.isList) = true
  | [] => rfl
  | x :: rest => by
    rw [show leavesList (x :: rest) = leaves x ++ leavesList rest from rfl,
      List.all_append, leaves_atoms x, leavesList_atoms rest]
    rfl

end

/-- Claim C10: the `flatten` generator yields exactly the leaves of the nested input
in left-to-right order (strings and numbers atomic, lists recursed into), so
its output is flat (contains no list) and its length is the number of leaves. -/
theorem flatten_yields_leaves (l : List PyVal) :
    flatten l = leavesList l
    ∧ (flatten l).length = (leavesList l).length
    ∧ (flatten l).all (fun x => !x.isList) = true := by
  have h := flatten_eq_leavesList l
  exact ⟨h, by rw [h], by rw [h]; exact leavesList_atoms l⟩

/-- Claim C3: the normalizer reduces each 3-element record with string head to the
single-element list holding its second element (with `UNK` remapped to `"O"`),
descends member-wise into every other list — preserving the nesting shape, as
only leaf records change — leaves atoms unchanged, and sends the two example
records to `B-Ort-Container` and `O` respectively. -/
theorem normalizer_leaf_reduction :
    (∀ (s : String) (b c : PyVal),
        delete_idx_0_and_2_of_string_list_with_3_members (PyVal.list [PyVal.str s, b, c])
          = PyVal.list [if isUNK b then PyVal.str "O" else b])
    ∧ (∀ l : List PyVal, isLeafRec l = false →
        delete_idx_0_and_2_of_string_list_with_3_members (PyVal.list l)
          = PyVal.list (l.map delete_idx_0_and_2_of_string_list_with_3_members))
    ∧ (∀ s : String,
        delete_idx_0_and_2_of_string_list_with_3_members (PyVal.str s) = PyVal.str s)
    ∧ (∀ n : Int,
        delete_idx_0_and_2_of_string_list_with_3_members (PyVal.int n) = PyVal.int n)
    ∧ delete_idx_0_and_2_of_string_list_with_3_members
        (PyVal.list [PyVal.str "Straße", PyVal.str "B-Ort-Container", PyVal.int 0])
        = PyVal.list [PyVal.str "B-Ort-Container"]
    ∧ delete_idx_0_and_2_of_string_list_with_3_members
        (PyVal.list [PyVal.str "x", PyVal.str "UNK", PyVal.int 0])
        = PyVal.list [PyVal.str "O"] :=
  ⟨fun s b c => normalize_leaf s b c, normalize_nonleaf, normalize_str, normalize_int,
    rfl, rfl⟩

/-- Claim C3 witness: the recursive-descent clause instantiated at a concrete
non-leaf list. -/
theorem normalizer_leaf_reduction_witness :
    isLeafRec [PyVal.int 1, PyVal.int 2] = false
    ∧ delete_idx_0_and_2_of_string_list_with_3_members (PyVal.list [PyVal.int 1, PyVal.int 2])
        = PyVal.list ([PyVal.int 1, PyVal.int 2].map
            delete_idx_0_and_2_of_string_list_with_3_members) :=
  ⟨rfl, normalizer_leaf_reduction.2.1 [PyVal.int 1, PyVal.int 2] rfl⟩

/-- Claim C4 counterexample: an already-flat list of exactly 3 label strings is not
left unchanged — the normalizer treats it as a token record and truncates it to
its middle label. -/
theorem flat_three_label_list_mangled :
    delete_idx_0_and_2_of_string_list_with_3_members
        (PyVal.list [PyVal.str "O", PyVal.str "B-Richtung", PyVal.str "I-Richtung"])
      = PyVal.list [PyVal.str "B-Richtung"]
    ∧ delete_idx_0_and_2_of_string_list_with_3_members
        (PyVal.list [PyVal.str "O", PyVal.str "B-Richtung", PyVal.str "I-Richtung"])
      ≠ PyVal.list [PyVal.str "O", PyVal.str "B-Richtung", PyVal.str "I-Richtung"] := by
  refine ⟨rfl, ?_⟩
  intro h
  rw [show delete_idx_0_and_2_of_string_list_with_3_members
      (PyVal.list [PyVal.str "O", PyVal.str "B-Richtung", PyVal.str "I-Richtung"])
      = PyVal.list [PyVal.str "B-Richtung"] from rfl] at h
  simp at h

/-- Claim C4, amended: an already-flat list of bare label strings is left unchanged
by the normalizer exactly when its length is not 3; a flat list of exactly 3
strings is instead truncated like a token record. -/
theorem flat_string_list_noop (ss : List String) (h : ss.length ≠ 3) :
    delete_idx_0_and_2_of_string_list_with_3_members (PyVal.list (ss.map PyVal.str))
      = PyVal.list (ss.map PyVal.str) := by
  have hlr : isLeafRec (ss.map PyVal.str) = false := by
    simp [isLeafRec, List.length_map, h]
  rw [normalize_nonleaf _ hlr, List.map_map]
  congr 1

/-- Claim C4 witness: a flat 2-element label list is untouched. -/
theorem flat_string_list_noop_witness :
    (["O", "B-Richtung"] : List String).length ≠ 3
    ∧ delete_idx_0_and_2_of_string_list_with_3_members
        (PyVal.list (["O", "B-Richtung"].map PyVal.str))
      = PyVal.list (["O", "B-Richtung"].map PyVal.str) :=
  ⟨by decide, flat_string_list_noop ["O", "B-Richtung"] (by decide)⟩

/-- Claim C7 counterexample: a record that reduces neither to a 3-element list with
string head nor to a bare label string (here a bare number) is silently left
in place — no error of any kind is raised. -/
theorem irreducible_record_not_rejected :
    delete_idx_0_and_2_of_string_list_with_3_members (PyVal.list [PyVal.int 5])
      = PyVal.list [PyVal.int 5] := rfl

/-- Claim C7, amended: the normalizer never fails a run: it is a total function that
returns every non-list value unchanged (and merely descends into lists),
rather than reporting unrecognized records. -/
theorem normalizer_never_fails (v : PyVal) (h : v.isList = false) :
    delete_idx_0_and_2_of_string_list_with_3_members v = v := normalize_atom v h

/-- Claim C7 witness: a bare number survives normalization untouched. -/
theorem normalizer_never_fails_witness :
    (PyVal.int 5).isList = false
    ∧ delete_idx_0_and_2_of_string_list_with_3_members (PyVal.int 5) = PyVal.int 5 :=
  ⟨rfl, normalizer_never_fails (PyVal.int 5) rfl⟩

/-- Claim C9 counterexample: normalization is not idempotent.  For a record whose
label position holds a nested 3-element string-headed list, the first pass
reduces the outer record and the second pass reduces the surviving inner list
again. -/
theorem normalizer_not_idempotent :
    delete_idx_0_and_2_of_string_list_with_3_members
        (delete_idx_0_and_2_of_string_list_with_3_members
          (PyVal.list [PyVal.str "x",
            PyVal.list [PyVal.str "a", PyVal.str "b", PyVal.str "c"], PyVal.int 0]))
      ≠ delete_idx_0_and_2_of_string_list_with_3_members
          (PyVal.list [PyVal.str "x",
            PyVal.list [PyVal.str "a", PyVal.str "b", PyVal.str "c"], PyVal.int 0]) := by
  intro h
  rw [show delete_idx_0_and_2_of_string_list_with_3_members
        (delete_idx_0_and_2_of_string_list_with_3_members
          (PyVal.list [PyVal.str "x",
            PyVal.list [PyVal.str "a", PyVal.str "b", PyVal.str "c"], PyVal.int 0]))
      = PyVal.list [PyVal.list [PyVal.str "b"]] from rfl,
    show delete_idx_0_and_2_of_string_list_with_3_members
          (PyVal.list [PyVal.str "x",
            PyVal.list [PyVal.str "a", PyVal.str "b", PyVal.str "c"], PyVal.int 0])
      = PyVal.list [PyVal.list [PyVal.str "a", PyVal.str "b", PyVal.str "c"]] from rfl] at h
  simp at h

/-- Structural induction over `PyVal` trees with membership-based induction
hypotheses for list nodes. -/
def pyvalInduction {motive : PyVal → Prop}
    (hstr : ∀ s, motive (PyVal.str s))
    (hint : ∀ n, motive (PyVal.int n))
    (hlist : ∀ l, (∀ x ∈ l, motive x) → motive (PyVal.list l)) :
    ∀ v, motive v
  | PyVal.str s => hstr s
  | PyVal.int n => hint n
  | PyVal.list l => hlist l (fun x hx => pyvalInduction hstr hint hlist x)
termination_by v => sizeOf v
decreasing_by
  have hs := List.sizeOf_lt_of_mem hx
  simp only [PyVal.list.sizeOf_spec]
  omega

mutual

/-- Well-formedness condition for the amended idempotence claim: every leaf
record (3-element list with string head) carries a non-list second element —
as every well-formed `(text, label, extra)` record does. -/
def recordOk : PyVal → Bool
  | PyVal.str _ => true
  | PyVal.int _ => true
  | PyVal.list l =>
    if isLeafRec l then !(l.getD 1 (PyVal.int 0)).isList else recordOkList l

/-- Predicate `recordOk` holding for every member of a list. -/
def recordOkList : List PyVal → Bool
  | [] => true
  | x :: xs => recordOk x && recordOkList xs

end

theorem recordOkList_iff (l : List PyVal) :
    recordOkList l = true ↔ ∀ x ∈ l, recordOk x = true := by
  induction l with
  | nil => simp [recordOkList]
  | cons x xs ih =>
    rw [show recordOkList (x :: xs) = (recordOk x && recordOkList xs) from rfl]
    simp [ih]

theorem labelFix_not_list (b : PyVal) (h : b.isList = false) :
    (labelFix b).isList = false := by
  unfold labelFix
  split
  · rfl
  · exact h

theorem headIsStr_map_normalize (l : List PyVal) :
    headIsStr (l.map delete_idx_0_and_2_of_string_list_with_3_members) = headIsStr l := by
  cases l with
  | nil => rfl
  | cons x xs => cases x <;> rfl

theorem isLeafRec_map_normalize (l : List PyVal) :
    isLeafRec (l.map delete_idx_0_and_2_of_string_list_with_3_members) = isLeafRec l := by
  unfold isLeafRec
  rw [List.length_map, headIsStr_map_normalize]

theorem leaf_shape (l : List PyVal) (h : isLeafRec l = true) :
    ∃ s b c, l = [PyVal.str s, b, c] := by
  have h12 : l.length = 3 ∧ headIsStr l = true := by
    simpa [isLeafRec] using h
  obtain ⟨h1, h2⟩ := h12
  obtain ⟨a, b, c, rfl⟩ := List.length_eq_three.mp h1
  cases a with
  | str s => exact ⟨s, b, c, rfl⟩
  | int n => exact absurd h2 (by simp [headIsStr])
  | list m => exact absurd h2 (by simp [headIsStr])

/-- Claim C9, amended: normalization is idempotent on every structure in which each
leaf record holds a non-list value in its label position (in particular on all
well-formed `(text, label, extra)` token records and bare label strings);
a nested list in a label position, as in the counterexample, is the only way to defeat it. -/
theorem normalizer_idempotent_of_recordOk (v : PyVal) :
    recordOk v = true →
      delete_idx_0_and_2_of_string_list_with_3_members
          (delete_idx_0_and_2_of_string_list_with_3_members v)
        = delete_idx_0_and_2_of_string_list_with_3_members v := by
  induction v using pyvalInduction with
  | hstr s => intro _; rfl
  | hint n => intro _; rfl
  | hlist l ih =>
    intro hok
    by_cases hlr : isLeafRec l = true
    · obtain ⟨s, b, c, rfl⟩ := leaf_shape l hlr
      have hb : b.isList = false := by
        have hrec : recordOk (PyVal.list [PyVal.str s, b, c]) = !b.isList := by
          rw [show recordOk (PyVal.list [PyVal.str s, b, c])
              = if isLeafRec [PyVal.str s, b, c] then
                  !(([PyVal.str s, b, c].getD 1 (PyVal.int 0)).isList)
                else recordOkList [PyVal.str s, b, c] from rfl]
          rw [if_pos hlr]
          rfl
        rw [hrec] at hok
        simpa using hok
      rw [normalize_leaf]
      rw [normalize_nonleaf [labelFix b] (by simp [isLeafRec])]
      rw [show ([labelFix b].map delete_idx_0_and_2_of_string_list_with_3_members)
          = [delete_idx_0_and_2_of_string_list_with_3_members (labelFix b)] from rfl]
      rw [normalize_atom (labelFix b) (labelFix_not_list b hb)]
    · have hlf : isLeafRec l = false := by
        revert hlr; cases isLeafRec l <;> simp
      have hok2 : ∀ x ∈ l, recordOk x = true := by
        have hrec : recordOk (PyVal.list l) = recordOkList l := by
          rw [show recordOk (PyVal.list l)
              = if isLeafRec l then !((l.getD 1 (PyVal.int 0)).isList)
                else recordOkList l from rfl]
          rw [if_neg (by rw [hlf]; exact Bool.false_ne_true)]
        rw [hrec] at hok
        exact (recordOkList_iff l).mp hok
      rw [normalize_nonleaf l hlf]
      rw [normalize_nonleaf _ (by rw [isLeafRec_map_normalize]; exact hlf)]
      rw [List.map_map]
      congr 1
      exact List.map_congr_left (fun a ha => ih a ha (hok2 a ha))

/-- Claim C9 witness: a standard nested token record is a fixed point of the second
normalization pass. -/
theorem normalizer_idempotent_witness :
    recordOk (PyVal.list [PyVal.list [PyVal.str "x", PyVal.str "B-Ort-Objekt", PyVal.int 0]]) = true
    ∧ delete_idx_0_and_2_of_string_list_with_3_members
        (delete_idx_0_and_2_of_string_list_with_3_members
          (PyVal.list [PyVal.list [PyVal.str "x", PyVal.str "B-Ort-Objekt", PyVal.int 0]]))
      = delete_idx_0_and_2_of_string_list_with_3_members
          (PyVal.list [PyVal.list [PyVal.str "x", PyVal.str "B-Ort-Objekt", PyVal.int 0]]) :=
  ⟨rfl, normalizer_idempotent_of_recordOk
    (PyVal.list [PyVal.list [PyVal.str "x", PyVal.str "B-Ort-Objekt", PyVal.int 0]]) rfl⟩

/-- Modelled from the spec: the type name of a `B-<Type>`/`I-<Type>` label
(the label without its 2-character prefix).  The span-level classification
report itself is computed by the external `seqeval` package
(`classification_report(..., mode="strict", scheme=IOB2)`), whose code is not
part of this repository, so the strict IOB2 span scorer is modelled from the
description given in the specification. -/
def entityTypeOf (l : String) : String := l.drop 2

/-- Modelled from the spec: the number of immediately following `I-<Type>`
continuation tokens of the same type. -/
def contLen (t : String) (ls : List String) : Nat :=
  (ls.takeWhile (fun x => x == "I-" ++ t)).length

/-- Modelled from the spec: strict IOB2 span extraction over one label
sequence starting at token index `i` — a span begins at a `B-<Type>` token
(or, permissive repair, at a dangling `I-<Type>`), and extends through the
immediately following `I-<Type>` tokens of the same type; `O`, a different
type, or another `B-` ends it.  Returns `(type, start, stop)` triples. -/
def spansFrom (i : Nat) (ls : List String) : List (String × Nat × Nat) :=
  match ls with
  | [] => []
  | l :: rest =>
    if l == "O" then spansFrom (i + 1) rest
    else
      (entityTypeOf l, i, i + contLen (entityTypeOf l) rest)
        :: spansFrom (i + contLen (entityTypeOf l) rest + 1)
            (rest.drop (contLen (entityTypeOf l) rest))
termination_by ls.length
decreasing_by
  · simp [List.length_cons]
  · simp only [List.length_drop, List.length_cons]
    omega

/-- Modelled from the spec: all spans of a sequence-of-sequences input, tagged
with their sentence (window) index so spans in different windows stay
distinct. -/
def docSpans (doc : List (List String)) : List (Nat × String × Nat × Nat) :=
  (doc.enum.map (fun p => (spansFrom 0 p.2).map (fun s => (p.1, s)))).flatten

/-- The number of spans of type `t` in a span list. -/
def spanTypeCount (t : String) (spans : List (Nat × String × Nat × Nat)) : Nat :=
  (spans.filter (fun s => s.2.1 == t)).length

/-- Modelled from the spec: strict matching — a gold span counts as matched
when the predicted spans contain a span with the same window, type, and exact
start/stop boundaries. -/
def matchedSpanCount (t : String) (y_true y_pred : List (List String)) : Nat :=
  ((docSpans y_true).filter
    (fun s => s.2.1 == t && decide (s ∈ docSpans y_pred))).length

/-- Modelled from the spec: per-type span precision — `matched / predicted`,
reported as the defined value `0` when there are no predicted spans of the
type. -/
def span_precision (y_true y_pred : List (List String)) (t : String) : ℚ :=
  if spanTypeCount t (docSpans y_pred) = 0 then 0
  else (matchedSpanCount t y_true y_pred : ℚ) / (spanTypeCount t (docSpans y_pred) : ℚ)

/-- Modelled from the spec: per-type span recall — `matched / gold`, reported
as the defined value `0` when there are no gold spans of the type. -/
def span_recall (y_true y_pred : List (List String)) (t : String) : ℚ :=
  if spanTypeCount t (docSpans y_true) = 0 then 0
  else (matchedSpanCount t y_true y_pred : ℚ) / (spanTypeCount t (docSpans y_true) : ℚ)

/-- Claim C8: a type with zero gold spans has recall 0 (and zero matched spans), and
a type with zero predicted spans has precision 0 (and zero matched spans);
both are defined values — the total functions never divide by zero. -/
theorem span_report_zero_denominators (y_true y_pred : List (List String)) (t : String) :
    (spanTypeCount t (docSpans y_true) = 0 →
        matchedSpanCount t y_true y_pred = 0 ∧ span_recall y_true y_pred t = 0)
    ∧ (spanTypeCount t (docSpans y_pred) = 0 →
        matchedSpanCount t y_true y_pred = 0 ∧ span_precision y_true y_pred t = 0) := by
  constructor
  · intro h
    refine ⟨?_, by rw [span_recall, if_pos h]⟩
    have hle : matchedSpanCount t y_true y_pred ≤ spanTypeCount t (docSpans y_true) := by
      unfold matchedSpanCount spanTypeCount
      rw [← List.countP_eq_length_filter, ← List.countP_eq_length_filter]
      apply List.countP_mono_left
      intro a _ ha
      simp only [Bool.and_eq_true] at ha
      exact ha.1
    omega
  · intro h
    refine ⟨?_, by rw [span_precision, if_pos h]⟩
    unfold matchedSpanCount
    rw [← List.countP_eq_length_filter]
    rw [List.countP_eq_zero]
    intro a _ ha
    simp only [Bool.and_eq_true, decide_eq_true_eq] at ha
    have hmem : a ∈ (docSpans y_pred).filter (fun s => s.2.1 == t) :=
      List.mem_filter.mpr ⟨ha.2, ha.1⟩
    have hpos : 0 < spanTypeCount t (docSpans y_pred) :=
      List.length_pos.mpr (List.ne_nil_of_mem hmem)
    omega

/-- Claim C8 witness: no gold spans of type `Richtung` in an empty gold document
against a nonempty prediction. -/
theorem span_report_zero_denominators_witness :
    spanTypeCount "Richtung" (docSpans []) = 0
    ∧ (matchedSpanCount "Richtung" [] [["B-Richtung"]] = 0
        ∧ span_recall [] [["B-Richtung"]] "Richtung" = 0) :=
  ⟨rfl, (span_report_zero_denominators [] [["B-Richtung"]] "Richtung").1 rfl⟩
